import Mathlib

/-!
Verification development for the bun2nix lockfile package deserializer.

The Rust sources embedded here are
`src/lockfile/package_deserializer.rs` and `src/package/fetcher.rs`.
Strings are modelled as lists of characters (`Str`); `serde_json::Value`
is modelled by the inductive `Value`, with `Value::to_string` modelled by
`valueToString` including the JSON string-escaping that `serde_json`
performs on serialization.  Rust panics (out-of-bounds `swap_remove`,
out-of-bounds `drain`) are modelled by `Option`: a `none` result of a
deserializer stands for a panic, `some r` for a normal `Result` value.
`debug_assert!` checks are compiled out in release builds and are modelled
as separate named predicates rather than as control flow.
-/

/-- Strings are modelled as lists of characters. -/
abbrev Str := List Char

/-- Model of `serde_json::Value`.  Numbers are simplified to integers;
no claim depends on number serialization. -/
inductive Value where
  | null : Value
  | bool (b : Bool) : Value
  | num (n : Int) : Value
  | str (s : Str) : Value
  | arr (vs : List Value) : Value
  | obj (fields : List (Str × Value)) : Value

/-- Hex digit characters used by JSON `\u00XX` escapes (lowercase, as in serde_json). -/
def hexDigitChar (n : Nat) : Char :=
  if n < 10 then Char.ofNat (48 + n) else Char.ofNat (87 + n)

/-- JSON escaping of a single character, as performed by `serde_json` when
serializing a string value. -/
def escapeJsonChar (c : Char) : Str :=
  if c = '"' then ['\\', '"']
  else if c = '\\' then ['\\', '\\']
  else if c = '\x08' then ['\\', 'b']
  else if c = '\x0c' then ['\\', 'f']
  else if c = '\n' then ['\\', 'n']
  else if c = '\r' then ['\\', 'r']
  else if c = '\t' then ['\\', 't']
  else if c.toNat < 32 then ['\\', 'u', '0', '0', hexDigitChar (c.toNat / 16), hexDigitChar (c.toNat % 16)]
  else [c]

/-- JSON escaping of a whole string (the body between the quotes produced
by `serde_json::to_string` on a string value). -/
def escapeString (s : Str) : Str :=
  (s.map escapeJsonChar).flatten

/-- True for the characters that JSON string escaping rewrites. -/
def char_needs_escape (c : Char) : Bool :=
  c == '"' || c == '\\' || decide (c.toNat < 32)

mutual

/-- Model of `serde_json::Value::to_string` (compact serialization). -/
def valueToString : Value → Str
  | Value.null => "null".data
  | Value.bool true => "true".data
  | Value.bool false => "false".data
  | Value.num n => (Int.repr n).data
  | Value.str s => '"' :: (escapeString s ++ ['"'])
  | Value.arr vs => '[' :: (valuesToString vs ++ [']'])
  | Value.obj fs => '{' :: (fieldsToString fs ++ ['}'])

/-- Comma-separated serialization of a list of values. -/
def valuesToString : List Value → Str
  | [] => []
  | [v] => valueToString v
  | v :: rest => valueToString v ++ ',' :: valuesToString rest

/-- Comma-separated serialization of object fields. -/
def fieldsToString : List (Str × Value) → Str
  | [] => []
  | [(k, v)] => ('"' :: (escapeString k ++ ['"'])) ++ ':' :: valueToString v
  | (k, v) :: rest =>
      (('"' :: (escapeString k ++ ['"'])) ++ ':' :: valueToString v) ++ ',' :: fieldsToString rest

end

/-- Model of `serde_json::Value::as_str`: the raw (unescaped) contents of a
string value, `none` for every other variant. -/
def valueAsStr : Value → Option Str
  | Value.str s => some s
  | _ => none

/-- Model of `str::find(char)`: index of the first occurrence of a character. -/
def find_char_pos (c : Char) : Str → Option Nat
  | [] => none
  | x :: xs => if x = c then some 0 else (find_char_pos c xs).map (· + 1)

/-- Model of `str::rfind(char)`: index of the last occurrence of a character. -/
def rfindChar (s : Str) (c : Char) : Option Nat :=
  ((List.range s.length).filter (fun i => s.get? i == some c)).getLast?

/-- Model of `str::rfind(&str)`: start index of the last occurrence of a substring. -/
def rfindSub (s sub : Str) : Option Nat :=
  ((List.range (s.length + 1)).filter (fun i => sub.isPrefixOf (s.drop i))).getLast?

/-- Model of `str::find(&str)`: start index of the first occurrence of a substring. -/
def findSubPos (s sub : Str) : Option Nat :=
  ((List.range (s.length + 1)).filter (fun i => sub.isPrefixOf (s.drop i))).head?

/-- Model of `str::contains(&str)`. -/
def contains_sub (s sub : Str) : Bool :=
  (List.range (s.length + 1)).any (fun i => sub.isPrefixOf (s.drop i))

/-- Model of `str::split_once(&str)` (first occurrence of a substring pattern). -/
def split_once_sub (s sub : Str) : Option (Str × Str) :=
  match findSubPos s sub with
  | none => none
  | some i => some (s.take i, s.drop (i + sub.length))

/-- Source `split_once_owned` (package_deserializer.rs): find the first
occurrence of the delimiter, drain the prefix through the delimiter, pop
the delimiter off the first piece, keep the remainder as second piece. -/
def split_once_owned (input : Str) (c : Char) : Option (Str × Str) :=
  match find_char_pos c input with
  | none => none
  | some split_pos => some (((input.take (split_pos + 1)).dropLast), input.drop (split_pos + 1))

/-- Source `drop_prefix` (package_deserializer.rs): remove a known prefix
if present, return the input unchanged otherwise. -/
def dropPrefixStr (input pre : Str) : Str :=
  if pre.isPrefixOf input then input.drop pre.length else input

/-- Source `PackageDeserializer::drain_after_substring`: everything strictly
after the last occurrence of `sub`, or `none` if `sub` is absent. -/
def drain_after_substring (input sub : Str) : Option Str :=
  match rfindSub input sub with
  | none => none
  | some pos => some (input.drop (pos + sub.length))

/-- Model of `Vec::swap_remove`: take the element at `index`, moving the
last element into its place.  `none` models the Rust panic on an
out-of-bounds index. -/
def swap_remove (values : List Value) (index : Nat) : Option (Value × List Value) :=
  match values.get? index, values.getLast? with
  | some v, some last => some (v, (values.set index last).dropLast)
  | _, _ => none

/-- Source `swap_remove_value`: swap-remove the value, serialize it with
`Value::to_string`, and drain off the first and the last character (the
surrounding quotes of a serialized string).  `none` models the Rust panics
(index out of bounds, or a serialization shorter than two characters for
which `drain(1..len-1)` panics). -/
def swap_remove_value (values : List Value) (index : Nat) : Option (Str × List Value) :=
  match swap_remove values index with
  | none => none
  | some (v, rest) =>
    let s := valueToString v
    if 2 ≤ s.length then some (((s.drop 1).dropLast), rest) else none

/-- Model of the crate's `Error` variants that the deserializer core can
produce.  Failures of the Prefetch collaborator are propagated opaquely
(spec section 7) and are carried by `PrefetchFailed`. -/
inductive Error where
  | UnexpectedPackageEntryLength (n : Nat) : Error
  | NoAtInPackageIdentifier : Error
  | MissingGitRef : Error
  | ImproperGithubUrl : Error
  | MissingFileSpecifier : Error
  | MissingWorkspaceSpecifier : Error
  | PrefetchFailed (e : Str) : Error
deriving DecidableEq, Repr

/-- Modelled from the spec: the result of the Prefetch Collaborator
(`mod prefetch`, whose source is not part of the given files): a record
holding a content hash. -/
structure Prefetch where
  hash : Str
deriving DecidableEq, Repr

/-- Source `Fetcher` (fetcher.rs): the nix-translated fetcher for a package. -/
inductive Fetcher where
  | FetchUrl (url : Str) (hash : Str) (name : Option Str) : Fetcher
  | FetchGit (url : Str) (rev : Str) (hash : Str) : Fetcher
  | FetchGitHub (owner : Str) (repo : Str) (rev : Str) (hash : Str) : Fetcher
  | FetchTarball (url : Str) (hash : Str) : Fetcher
  | CopyToStore (path : Str) : Fetcher
deriving DecidableEq, Repr

/-- Source `Package`: a name paired with its fetcher. -/
structure Package where
  name : Str
  fetcher : Fetcher
deriving DecidableEq, Repr

/-- Source `DEFAULT_REGISTRY` (fetcher.rs). -/
def DEFAULT_REGISTRY : Str := "https://registry.npmjs.org/".data

/-- Source `Fetcher::to_npm_url`, shared fall-through: construct the URL from
the default registry (the code after the explicit-tarball-URL early return). -/
def to_npm_url_default (ident : Str) : Except Error Str :=
  match split_once_sub ident "/".data with
  | none =>
    match split_once_sub ident "@".data with
    | none => Except.error Error.NoAtInPackageIdentifier
    | some (nm, ver) =>
        Except.ok (DEFAULT_REGISTRY ++ nm ++ "/-/".data ++ nm ++ "-".data ++ ver ++ ".tgz".data)
  | some (user, name_and_ver) =>
    match split_once_sub name_and_ver "@".data with
    | none => Except.error Error.NoAtInPackageIdentifier
    | some (nm, ver) =>
        Except.ok (DEFAULT_REGISTRY ++ user ++ "/".data ++ nm ++ "/-/".data ++ nm ++ "-".data ++ ver ++ ".tgz".data)

/-- Source `Fetcher::to_npm_url`: an explicit non-empty tarball URL is
returned verbatim; otherwise the URL is built from the default registry. -/
def to_npm_url (ident : Str) (tarball_url : Option Str) : Except Error Str :=
  match tarball_url with
  | some url => if url.isEmpty then to_npm_url_default ident else Except.ok url
  | none => to_npm_url_default ident

/-- Source `Fetcher::extract_tgz_filename`, unscoped fall-through: the code
after the scoped `if let` chain (split on `@`, with a plain fallback). -/
def extract_tgz_unscoped (ident : Str) : Str :=
  match split_once_sub ident "@".data with
  | some (nm, ver) => nm ++ "-".data ++ ver ++ ".tgz".data
  | none => ident ++ ".tgz".data

/-- Source `Fetcher::extract_tgz_filename`. -/
def extract_tgz_filename (ident : Str) : Str :=
  match split_once_sub ident "/".data with
  | some (_, name_and_ver) =>
    match split_once_sub name_and_ver "@".data with
    | some (nm, ver) => nm ++ "-".data ++ ver ++ ".tgz".data
    | none => extract_tgz_unscoped ident
  | none => extract_tgz_unscoped ident

/-- Source `Fetcher::new_npm_package`: build the URL, and set the explicit
archive filename only when a non-empty explicit tarball URL was supplied. -/
def new_npm_package (ident : Str) (hash : Str) (tarball_url : Option Str) : Except Error Fetcher :=
  match to_npm_url ident tarball_url with
  | Except.error e => Except.error e
  | Except.ok url =>
    let nameF := (Option.filter (fun u => !List.isEmpty u) tarball_url).map
      (fun _ => extract_tgz_filename ident)
    Except.ok (Fetcher.FetchUrl url hash nameF)

/-- Condition of the `debug_assert!` in `deserialize_npm_package`: the hash
looks like an SRI sha512 value.  The assert fires when this is `false`. -/
def npm_hash_assert_ok (hash : Str) : Bool :=
  contains_sub hash "sha512-".data

/-- Condition of the `debug_assert!` in `deserialize_file_package`: it
fires (panics in debug builds) when the file path contains `http`. -/
def file_path_http_assert (path : Str) : Bool :=
  contains_sub path "http".data

/-- Source `PackageDeserializer::deserialize_npm_package` (arity 4).
`self.name` is unused by the source method; it is kept as a parameter to
mirror `self`.  The prefetch collaborator is not referenced at all. -/
def deserialize_npm_package (nm : Str) (values : List Value) : Option (Except Error Package) :=
  match swap_remove_value values 0 with
  | none => none
  | some (npm_identifier_raw, values1) =>
    match swap_remove_value values1 0 with
    | none => none
    | some (hash, values2) =>
      let tarball_url := Option.filter (fun s => !List.isEmpty s) ((values2.get? 1).bind valueAsStr)
      match new_npm_package npm_identifier_raw hash tarball_url with
      | Except.error e => some (Except.error e)
      | Except.ok fetcher => some (Except.ok (Package.mk npm_identifier_raw fetcher))

/-- Source `PackageDeserializer::deserialize_github_package`. -/
def deserialize_github_package (pf : Str → Except Str Prefetch) (id : Str) : Except Error Package :=
  match split_once_owned id '#' with
  | none => Except.error Error.MissingGitRef
  | some (url, rev) =>
    let prefetch_url := url ++ "?ref=".data ++ rev
    match pf prefetch_url with
    | Except.error e => Except.error (Error.PrefetchFailed e)
    | Except.ok prefetch =>
      match split_once_owned url '/' with
      | none => Except.error Error.ImproperGithubUrl
      | some (owner_with_pre, repo) =>
        let owner := dropPrefixStr owner_with_pre "github:".data
        let id_with_ver := "github:".data ++ owner ++ "-".data ++ repo ++ "-".data ++ rev
        Except.ok (Package.mk id_with_ver (Fetcher.FetchGitHub owner repo rev prefetch.hash))

/-- Source `PackageDeserializer::deserialize_git_package`. -/
def deserialize_git_package (pf : Str → Except Str Prefetch) (id : Str) : Except Error Package :=
  let git_url := dropPrefixStr id "git+".data
  match split_once_owned git_url '#' with
  | none => Except.error Error.MissingGitRef
  | some (url, rev) =>
    let prefetch_url := "git+".data ++ url ++ "?rev=".data ++ rev
    match pf prefetch_url with
    | Except.error e => Except.error (Error.PrefetchFailed e)
    | Except.ok prefetch =>
      Except.ok (Package.mk ("git:".data ++ rev) (Fetcher.FetchGit url rev prefetch.hash))

/-- Source `PackageDeserializer::deserialize_git_or_github_package` (arity 3).
`self.name` is unused by the source method; kept as a parameter to mirror
`self`. -/
def deserialize_git_or_github_package (pf : Str → Except Str Prefetch) (nm : Str)
    (values : List Value) : Option (Except Error Package) :=
  match swap_remove_value values 0 with
  | none => none
  | some (id0, _) =>
    match rfindChar id0 '@' with
    | none => some (Except.error Error.NoAtInPackageIdentifier)
    | some at_pos =>
      let id := id0.drop (at_pos + 1)
      if "github:".data.isPrefixOf id then some (deserialize_github_package pf id)
      else some (deserialize_git_package pf id)

/-- Source `PackageDeserializer::deserialize_file_package`.  Its
`debug_assert!` is modelled separately by `file_path_http_assert`. -/
def deserialize_file_package (nm : Str) (path : Str) : Except Error Package :=
  match drain_after_substring path "file:".data with
  | none => Except.error Error.MissingFileSpecifier
  | some path2 => Except.ok (Package.mk nm (Fetcher.CopyToStore path2))

/-- Source `PackageDeserializer::deserialize_tarball_package`. -/
def deserialize_tarball_package (pf : Str → Except Str Prefetch) (url : Str) : Except Error Package :=
  match pf url with
  | Except.error e => Except.error (Error.PrefetchFailed e)
  | Except.ok prefetch =>
    Except.ok (Package.mk ("tarball:".data ++ url) (Fetcher.FetchTarball url prefetch.hash))

/-- Source `PackageDeserializer::deserialize_tarball_or_file_package` (arity 2). -/
def deserialize_tarball_or_file_package (pf : Str → Except Str Prefetch) (nm : Str)
    (values : List Value) : Option (Except Error Package) :=
  match swap_remove_value values 0 with
  | none => none
  | some (id, _) =>
    match drain_after_substring id "@".data with
    | none => some (Except.error Error.NoAtInPackageIdentifier)
    | some path =>
      if "http".data.isPrefixOf path then some (deserialize_tarball_package pf path)
      else some (deserialize_file_package nm path)

/-- Source `PackageDeserializer::deserialize_workspace_package` (arity 1). -/
def deserialize_workspace_package (nm : Str) (values : List Value) : Option (Except Error Package) :=
  match swap_remove_value values 0 with
  | none => none
  | some (id, _) =>
    match drain_after_substring id "workspace:".data with
    | none => some (Except.error Error.MissingWorkspaceSpecifier)
    | some path => some (Except.ok (Package.mk nm (Fetcher.CopyToStore path)))

/-- Source `PackageDeserializer::deserialize_package`: dispatch on the arity
of the raw values. -/
def deserialize_package (pf : Str → Except Str Prefetch) (nm : Str)
    (values : List Value) : Option (Except Error Package) :=
  match values.length with
  | 1 => deserialize_workspace_package nm values
  | 2 => deserialize_tarball_or_file_package pf nm values
  | 3 => deserialize_git_or_github_package pf nm values
  | 4 => deserialize_npm_package nm values
  | x => some (Except.error (Error.UnexpectedPackageEntryLength x))

/-- Prefetch stand-in that always fails. -/
def pfZero : Str → Except Str Prefetch := fun _ => Except.error []

/-- Prefetch stand-in that always succeeds with hash `h0`. -/
def pfOk : Str → Except Str Prefetch := fun _ => Except.ok (Prefetch.mk "h0".data)

deriving instance DecidableEq for Except

/-- Routing equation: arity 1 goes to the workspace decoder. -/
theorem dp_len1 (pf : Str → Except Str Prefetch) (nm : Str) (values : List Value)
    (hL : values.length = 1) :
    deserialize_package pf nm values = deserialize_workspace_package nm values := by
  unfold deserialize_package
  rw [hL]

/-- Routing equation: arity 2 goes to the tarball-or-file decoder. -/
theorem dp_len2 (pf : Str → Except Str Prefetch) (nm : Str) (values : List Value)
    (hL : values.length = 2) :
    deserialize_package pf nm values = deserialize_tarball_or_file_package pf nm values := by
  unfold deserialize_package
  rw [hL]

/-- Routing equation: arity 3 goes to the git-or-github decoder. -/
theorem dp_len3 (pf : Str → Except Str Prefetch) (nm : Str) (values : List Value)
    (hL : values.length = 3) :
    deserialize_package pf nm values = deserialize_git_or_github_package pf nm values := by
  unfold deserialize_package
  rw [hL]

/-- Routing equation: arity 4 goes to the npm decoder. -/
theorem dp_len4 (pf : Str → Except Str Prefetch) (nm : Str) (values : List Value)
    (hL : values.length = 4) :
    deserialize_package pf nm values = deserialize_npm_package nm values := by
  unfold deserialize_package
  rw [hL]

/-- Routing equation: arity 0 fails with the length error. -/
theorem dp_len0 (pf : Str → Except Str Prefetch) (nm : Str) (values : List Value)
    (hL : values.length = 0) :
    deserialize_package pf nm values =
      some (Except.error (Error.UnexpectedPackageEntryLength 0)) := by
  unfold deserialize_package
  rw [hL]

/-- Routing equation: arity 5 or more fails with the length error carrying
the observed length. -/
theorem dp_len_ge5 (pf : Str → Except Str Prefetch) (nm : Str) (values : List Value)
    (hL : 5 ≤ values.length) :
    deserialize_package pf nm values =
      some (Except.error (Error.UnexpectedPackageEntryLength values.length)) := by
  obtain ⟨k, hk⟩ : ∃ k, values.length = k + 5 := ⟨values.length - 5, by omega⟩
  unfold deserialize_package
  rw [hk]
  rfl

/-- The npm URL builder never produces the length-mismatch error. -/
theorem to_npm_url_no_len_err (ident : Str) (turl : Option Str) (n : Nat) :
    to_npm_url ident turl ≠ Except.error (Error.UnexpectedPackageEntryLength n) := by
  unfold to_npm_url to_npm_url_default
  split <;> (try split) <;> (try split) <;> (try split) <;> simp_all

/-- The npm fetcher builder never produces the length-mismatch error. -/
theorem new_npm_package_no_len_err (ident hash : Str) (turl : Option Str) (n : Nat) :
    new_npm_package ident hash turl ≠ Except.error (Error.UnexpectedPackageEntryLength n) := by
  unfold new_npm_package
  split
  · rename_i e h
    intro hc
    injection hc with hc
    exact to_npm_url_no_len_err ident turl n (hc ▸ h)
  · simp

/-- The workspace decoder never produces the length-mismatch error. -/
theorem workspace_no_len_err (nm : Str) (values : List Value) (n : Nat) :
    deserialize_workspace_package nm values ≠
      some (Except.error (Error.UnexpectedPackageEntryLength n)) := by
  unfold deserialize_workspace_package
  split
  · simp
  · split <;> simp

/-- The tarball-or-file decoder never produces the length-mismatch error. -/
theorem tarball_or_file_no_len_err (pf : Str → Except Str Prefetch) (nm : Str)
    (values : List Value) (n : Nat) :
    deserialize_tarball_or_file_package pf nm values ≠
      some (Except.error (Error.UnexpectedPackageEntryLength n)) := by
  unfold deserialize_tarball_or_file_package deserialize_tarball_package deserialize_file_package
  split
  · simp
  · split
    · simp
    · split <;> split <;> simp

/-- The git-or-github decoder never produces the length-mismatch error. -/
theorem git_or_github_no_len_err (pf : Str → Except Str Prefetch) (nm : Str)
    (values : List Value) (n : Nat) :
    deserialize_git_or_github_package pf nm values ≠
      some (Except.error (Error.UnexpectedPackageEntryLength n)) := by
  unfold deserialize_git_or_github_package deserialize_github_package deserialize_git_package
  split
  · simp
  · split
    · simp
    · dsimp only
      split
      · split
        · simp
        · split
          · simp
          · split <;> simp
      · split
        · simp
        · split <;> simp

/-- The npm decoder never produces the length-mismatch error. -/
theorem npm_no_len_err (nm : Str) (values : List Value) (n : Nat) :
    deserialize_npm_package nm values ≠
      some (Except.error (Error.UnexpectedPackageEntryLength n)) := by
  unfold deserialize_npm_package
  split
  · simp
  · split
    · simp
    · dsimp only
      split
      · rename_i h
        intro hc
        injection hc with hc
        injection hc with hc
        exact new_npm_package_no_len_err _ _ _ n (hc ▸ h)
      · simp

/-- C1: `deserialize_package` routes solely by the arity of the values:
arity 1 to the workspace decoder, 2 to the tarball-or-file decoder, 3 to
the git-or-github decoder, 4 to the npm decoder; and it returns the
unexpected-entry-length error carrying the observed length if and only if
the arity is outside 1..4. -/
theorem C1_arity_dispatch (pf : Str → Except Str Prefetch) (nm : Str) (values : List Value) :
    (values.length = 1 →
      deserialize_package pf nm values = deserialize_workspace_package nm values) ∧
    (values.length = 2 →
      deserialize_package pf nm values = deserialize_tarball_or_file_package pf nm values) ∧
    (values.length = 3 →
      deserialize_package pf nm values = deserialize_git_or_github_package pf nm values) ∧
    (values.length = 4 →
      deserialize_package pf nm values = deserialize_npm_package nm values) ∧
    (∀ n, deserialize_package pf nm values =
        some (Except.error (Error.UnexpectedPackageEntryLength n)) ↔
      (n = values.length ∧ ¬(1 ≤ values.length ∧ values.length ≤ 4))) := by
  refine ⟨dp_len1 pf nm values, dp_len2 pf nm values, dp_len3 pf nm values,
    dp_len4 pf nm values, fun n => ⟨?_, ?_⟩⟩
  · intro h
    by_cases hio : 1 ≤ values.length ∧ values.length ≤ 4
    · exfalso
      have hcases : values.length = 1 ∨ values.length = 2 ∨ values.length = 3 ∨
          values.length = 4 := by omega
      rcases hcases with h1 | h2 | h3 | h4
      · rw [dp_len1 pf nm values h1] at h
        exact workspace_no_len_err nm values n h
      · rw [dp_len2 pf nm values h2] at h
        exact tarball_or_file_no_len_err pf nm values n h
      · rw [dp_len3 pf nm values h3] at h
        exact git_or_github_no_len_err pf nm values n h
      · rw [dp_len4 pf nm values h4] at h
        exact npm_no_len_err nm values n h
    · have h0or : values.length = 0 ∨ 5 ≤ values.length := by omega
      rcases h0or with h0 | h5
      · rw [dp_len0 pf nm values h0] at h
        simp only [Option.some.injEq] at h
        injection h with h
        injection h with h
        exact ⟨by omega, hio⟩
      · rw [dp_len_ge5 pf nm values h5] at h
        simp only [Option.some.injEq] at h
        injection h with h
        injection h with h
        exact ⟨by omega, hio⟩
  · rintro ⟨hn, hout⟩
    have h0or : values.length = 0 ∨ 5 ≤ values.length := by omega
    rcases h0or with h0 | h5
    · rw [dp_len0 pf nm values h0, hn, h0]
    · rw [dp_len_ge5 pf nm values h5, hn]

/-- Witness for C1 at a concrete arity-5 entry. -/
theorem C1_arity_dispatch_witness :
    deserialize_package pfZero [] [Value.null, Value.null, Value.null, Value.null, Value.null] =
      some (Except.error (Error.UnexpectedPackageEntryLength 5)) :=
  ((C1_arity_dispatch pfZero []
      [Value.null, Value.null, Value.null, Value.null, Value.null]).2.2.2.2 5).mpr
    (by constructor <;> simp)

/-- Character search fails exactly when the character is absent. -/
theorem find_char_pos_eq_none (c : Char) (s : Str) :
    find_char_pos c s = none ↔ c ∉ s := by
  induction s with
  | nil => simp [find_char_pos]
  | cons x xs ih =>
    by_cases hx : x = c
    · subst hx
      simp [find_char_pos]
    · simp [find_char_pos, hx, ih, Ne.symm hx]

/-- Auxiliary: `dropLast` distributes over `cons` for a nonempty tail. -/
theorem dropLast_cons_ne (x : Char) (t : Str) (h : t ≠ []) :
    (x :: t).dropLast = x :: t.dropLast := by
  cases t with
  | nil => exact absurd rfl h
  | cons y ys => rfl

/-- Auxiliary: a positive take of a nonempty list is nonempty. -/
theorem take_succ_ne_nil (n : Nat) (t : Str) (h : t ≠ []) : t.take (n + 1) ≠ [] := by
  cases t with
  | nil => exact absurd rfl h
  | cons y ys => simp

/-- Splitting at the first occurrence: on an input of the form
`b ++ c :: a` with no `c` in `b`, the split returns exactly `(b, a)`. -/
theorem split_once_owned_append (c : Char) (b a : Str) (hb : c ∉ b) :
    split_once_owned (b ++ c :: a) c = some (b, a) := by
  induction b with
  | nil =>
    simp only [List.nil_append]
    unfold split_once_owned
    simp [find_char_pos]
  | cons x b' ih =>
    have hxc : ¬(x = c) := by
      intro hx
      exact hb (hx ▸ List.mem_cons_self x b')
    have hb' : c ∉ b' := fun hm => hb (List.mem_cons_of_mem x hm)
    have ihs := ih hb'
    unfold split_once_owned at ihs
    cases hf : find_char_pos c (b' ++ c :: a) with
    | none =>
      rw [hf] at ihs
      exact absurd ihs (by simp)
    | some i =>
      rw [hf] at ihs
      simp only [Option.some.injEq, Prod.mk.injEq] at ihs
      obtain ⟨hfst, hsnd⟩ := ihs
      have hne : b' ++ c :: a ≠ [] := by simp
      have hfind : find_char_pos c ((x :: b') ++ c :: a) = some (i + 1) := by
        simp only [List.cons_append, find_char_pos, hxc, if_false, List.append_eq, hf,
          Option.map_some']
      unfold split_once_owned
      rw [hfind]
      simp only [Option.some.injEq, Prod.mk.injEq, List.cons_append, List.take_succ_cons,
        List.drop_succ_cons]
      constructor
      · rw [dropLast_cons_ne x _ (take_succ_ne_nil i _ hne), hfst]
      · exact hsnd

/-- C9: `split_once_owned` returns `none` exactly when the delimiter is
absent, and otherwise returns the part strictly before the first
occurrence of the delimiter and the part strictly after it (the
delimiter itself is consumed): on `b ++ c :: a` with no `c` in `b` the
result is `(b, a)`. -/
theorem C9_split_once_spec (s : Str) (c : Char) :
    (split_once_owned s c = none ↔ c ∉ s) ∧
    (∀ b a, c ∉ b → split_once_owned (b ++ c :: a) c = some (b, a)) := by
  constructor
  · constructor
    · intro h
      unfold split_once_owned at h
      cases hf : find_char_pos c s with
      | none => exact (find_char_pos_eq_none c s).mp hf
      | some i =>
        rw [hf] at h
        exact absurd h (by simp)
    · intro h
      unfold split_once_owned
      rw [(find_char_pos_eq_none c s).mpr h]
  · exact fun b a hb => split_once_owned_append c b a hb

/-- Witness for C9: the two documented examples. -/
theorem C9_split_once_spec_witness :
    split_once_owned "hello#world".data '#' = some ("hello".data, "world".data) ∧
    split_once_owned "noseparator".data '#' = none := by
  constructor
  · have h := (C9_split_once_spec "hello#world".data '#').2 "hello".data "world".data (by decide)
    have he : "hello#world".data = "hello".data ++ '#' :: "world".data := by decide
    rw [he]
    exact h
  · exact (C9_split_once_spec "noseparator".data '#').1.mpr (by decide)

/-- Stripping the first and the last character of a serialized string value
recovers the escaped body. -/
theorem strip_quotes_escape (l : Str) :
    ((('"' :: (l ++ ['"'])).drop 1).dropLast) = l := by
  simp

/-- A serialized string value is at least two characters long. -/
theorem vts_len2 (s : Str) : 2 ≤ (valueToString (Value.str s)).length := by
  show 2 ≤ ('"' :: (escapeString s ++ ['"'])).length
  simp

/-- `swap_remove_value` at index 0 of a two-element list headed by a string. -/
theorem swap_str_head2 (s : Str) (v1 : Value) :
    swap_remove_value [Value.str s, v1] 0 = some (escapeString s, [v1]) := by
  unfold swap_remove_value swap_remove
  simp only [List.get?, List.getLast?]
  rw [if_pos (vts_len2 s)]
  simp only [valueToString]
  rw [strip_quotes_escape]
  simp [List.getLast]

/-- `swap_remove_value` at index 0 of a three-element list headed by a string. -/
theorem swap_str_head3 (s : Str) (v1 v2 : Value) :
    swap_remove_value [Value.str s, v1, v2] 0 = some (escapeString s, [v2, v1]) := by
  unfold swap_remove_value swap_remove
  simp only [List.get?, List.getLast?]
  rw [if_pos (vts_len2 s)]
  simp only [valueToString]
  rw [strip_quotes_escape]
  simp [List.getLast]

/-- `swap_remove_value` at index 0 of a four-element list headed by a string:
the last element is swapped into the head position, as in the npm decoder. -/
theorem swap_str_head4 (s : Str) (v1 v2 v3 : Value) :
    swap_remove_value [Value.str s, v1, v2, v3] 0 = some (escapeString s, [v3, v1, v2]) := by
  unfold swap_remove_value swap_remove
  simp only [List.get?, List.getLast?]
  rw [if_pos (vts_len2 s)]
  simp only [valueToString]
  rw [strip_quotes_escape]
  simp [List.getLast]

/-- A character that needs no JSON escape is mapped to itself. -/
theorem escapeJsonChar_eq_self (c : Char) (h : char_needs_escape c = false) :
    escapeJsonChar c = [c] := by
  unfold char_needs_escape at h
  simp only [Bool.or_eq_false_iff, beq_eq_false_iff_ne, ne_eq, decide_eq_false_iff_not,
    Nat.not_lt] at h
  obtain ⟨⟨hq, hbs⟩, hc⟩ := h
  have h08 : ¬(c = '\x08') := by
    intro hx
    rw [hx] at hc
    exact absurd hc (by decide)
  have h0c : ¬(c = '\x0c') := by
    intro hx
    rw [hx] at hc
    exact absurd hc (by decide)
  have hn : ¬(c = '\n') := by
    intro hx
    rw [hx] at hc
    exact absurd hc (by decide)
  have hr : ¬(c = '\r') := by
    intro hx
    rw [hx] at hc
    exact absurd hc (by decide)
  have ht : ¬(c = '\t') := by
    intro hx
    rw [hx] at hc
    exact absurd hc (by decide)
  unfold escapeJsonChar
  rw [if_neg hq, if_neg hbs, if_neg h08, if_neg h0c, if_neg hn, if_neg hr, if_neg ht,
    if_neg (by omega)]

/-- A string whose characters need no JSON escape is preserved by escaping. -/
theorem escapeString_eq_self (s : Str) (h : ∀ c ∈ s, char_needs_escape c = false) :
    escapeString s = s := by
  induction s with
  | nil => rfl
  | cons c cs ih =>
    unfold escapeString at ih ⊢
    simp only [List.map_cons, List.flatten_cons]
    rw [escapeJsonChar_eq_self c (h c (List.mem_cons_self c cs)),
      ih (fun x hx => h x (List.mem_cons_of_mem c hx))]
    rfl

/-- Evaluation of an arity-4 entry with an empty tarball URL: the result is
the default-registry URL construction over the extracted (JSON-escaped)
identifier, with the extracted inline hash and no explicit filename. -/
theorem npm_empty_turl_eval (pf : Str → Except Str Prefetch) (nm ident hashS : Str) (meta : Value) :
    deserialize_package pf nm [Value.str ident, Value.str [], meta, Value.str hashS] =
      some ((to_npm_url (escapeString ident) none).map
        (fun url => Package.mk (escapeString ident) (Fetcher.FetchUrl url (escapeString hashS) none))) := by
  rw [dp_len4 pf nm [Value.str ident, Value.str [], meta, Value.str hashS] rfl]
  unfold deserialize_npm_package
  rw [swap_str_head4]
  simp only [swap_str_head3]
  unfold new_npm_package to_npm_url
  simp only [List.get?, valueAsStr, Option.bind, Option.filter]
  cases h : to_npm_url_default (escapeString ident) with
  | error e => simp [h, Except.map]
  | ok url => simp [h, Except.map]

/-- C2 (amended): decoding an arity-4 entry whose tarball URL is the empty
string returns exactly the default-registry URL construction over the
JSON-escaped identifier, packaged with the escaped identifier as name and
the escaped inline hash, and no explicit filename; the escaped identifier
equals the identifier whenever it contains no characters JSON escaping
rewrites; the result never depends on the prefetch collaborator; and the
documented example decodes to the documented package. -/
theorem C2_npm_default_registry (pf pf' : Str → Except Str Prefetch) (nm ident hashS : Str)
    (meta : Value) :
    deserialize_package pf nm [Value.str ident, Value.str [], meta, Value.str hashS] =
      some ((to_npm_url (escapeString ident) none).map
        (fun url => Package.mk (escapeString ident)
          (Fetcher.FetchUrl url (escapeString hashS) none))) ∧
    deserialize_package pf nm [Value.str ident, Value.str [], meta, Value.str hashS] =
      deserialize_package pf' nm [Value.str ident, Value.str [], meta, Value.str hashS] ∧
    ((∀ c ∈ ident, char_needs_escape c = false) → escapeString ident = ident) ∧
    deserialize_package pf nm
        [Value.str "@types/bun@1.2.4".data, Value.str [], Value.obj [], Value.str "sha512-abc==".data] =
      some (Except.ok (Package.mk "@types/bun@1.2.4".data
        (Fetcher.FetchUrl "https://registry.npmjs.org/@types/bun/-/bun-1.2.4.tgz".data
          "sha512-abc==".data none))) := by
  refine ⟨npm_empty_turl_eval pf nm ident hashS meta, ?_, escapeString_eq_self ident, ?_⟩
  · rw [npm_empty_turl_eval pf nm ident hashS meta, npm_empty_turl_eval pf' nm ident hashS meta]
  · rw [npm_empty_turl_eval pf nm "@types/bun@1.2.4".data "sha512-abc==".data (Value.obj [])]
    decide

/-- C2 counterexample to the claim as stated: an arity-4 entry with empty
tarball URL whose identifier has no `@` fails to decode at all, and an
identifier containing a backslash decodes to a package whose name is the
JSON-escaped identifier, not the identifier. -/
theorem C2_npm_default_registry_counterexample :
    deserialize_package pfZero [] [Value.str "x".data, Value.str [], Value.obj [],
        Value.str "sha512-a".data] =
      some (Except.error Error.NoAtInPackageIdentifier) ∧
    deserialize_package pfZero [] [Value.str "a\\b@1.0.0".data, Value.str [], Value.obj [],
        Value.str "sha512-a2".data] =
      some (Except.ok (Package.mk "a\\\\b@1.0.0".data
        (Fetcher.FetchUrl "https://registry.npmjs.org/a\\\\b/-/a\\\\b-1.0.0.tgz".data
          "sha512-a2".data none))) ∧
    "a\\\\b@1.0.0".data ≠ "a\\b@1.0.0".data := by
  refine ⟨?_, ?_, by decide⟩ <;> decide

/-- Evaluation of an arity-3 entry: extract the (JSON-escaped) identifier,
drop everything through the last `@`, and dispatch on the `github:` prefix. -/
theorem git_or_github_eval (pf : Str → Except Str Prefetch) (nm : Str) (s : Str) (v1 v2 : Value) :
    deserialize_package pf nm [Value.str s, v1, v2] =
      (match rfindChar (escapeString s) '@' with
       | none => some (Except.error Error.NoAtInPackageIdentifier)
       | some at_pos =>
         if "github:".data.isPrefixOf ((escapeString s).drop (at_pos + 1)) then
           some (deserialize_github_package pf ((escapeString s).drop (at_pos + 1)))
         else some (deserialize_git_package pf ((escapeString s).drop (at_pos + 1)))) := by
  rw [dp_len3 pf nm [Value.str s, v1, v2] rfl]
  unfold deserialize_git_or_github_package
  rw [swap_str_head3]

/-- C3: decoding an arity-3 entry whose extracted identifier suffix after
the last `@` starts with `github:` splits that spec on the first `#` into
(path, rev), failing with the missing-git-ref error when `#` is absent;
otherwise it consults the prefetch collaborator at exactly
`{path}?ref={rev}`, then splits path on the first `/` into (owner, repo),
failing with the improper-GitHub-URL error when `/` is absent; otherwise
it drops the `github:` prefix from the owner and produces the package
named `github:{owner}-{repo}-{rev}` with a `FetchGitHub` fetcher whose
hash is the prefetch result. -/
theorem C3_github_decoding (pf : Str → Except Str Prefetch) (nm ident : Str) (v1 v2 : Value)
    (p : Nat) (spec path rev : Str)
    (hp : rfindChar (escapeString ident) '@' = some p)
    (hspec : spec = (escapeString ident).drop (p + 1))
    (hgh : "github:".data.isPrefixOf spec = true) :
    (split_once_owned spec '#' = none →
      deserialize_package pf nm [Value.str ident, v1, v2] =
        some (Except.error Error.MissingGitRef)) ∧
    (split_once_owned spec '#' = some (path, rev) →
      (∀ e, pf (path ++ "?ref=".data ++ rev) = Except.error e →
        deserialize_package pf nm [Value.str ident, v1, v2] =
          some (Except.error (Error.PrefetchFailed e))) ∧
      (∀ h : Prefetch, pf (path ++ "?ref=".data ++ rev) = Except.ok h →
        (split_once_owned path '/' = none →
          deserialize_package pf nm [Value.str ident, v1, v2] =
            some (Except.error Error.ImproperGithubUrl)) ∧
        (∀ ow repo, split_once_owned path '/' = some (ow, repo) →
          deserialize_package pf nm [Value.str ident, v1, v2] =
            some (Except.ok (Package.mk
              ("github:".data ++ dropPrefixStr ow "github:".data ++ "-".data ++ repo
                ++ "-".data ++ rev)
              (Fetcher.FetchGitHub (dropPrefixStr ow "github:".data) repo rev h.hash)))))) := by
  have hdp : deserialize_package pf nm [Value.str ident, v1, v2] =
      some (deserialize_github_package pf spec) := by
    rw [git_or_github_eval pf nm ident v1 v2, hp]
    dsimp only
    rw [← hspec, if_pos hgh]
  refine ⟨?_, ?_⟩
  · intro hsplit
    rw [hdp]
    unfold deserialize_github_package
    rw [hsplit]
  · intro hsplit
    refine ⟨?_, ?_⟩
    · intro e he
      rw [hdp]
      unfold deserialize_github_package
      rw [hsplit]
      dsimp only
      rw [he]
    · intro h hok
      refine ⟨?_, ?_⟩
      · intro hsl
        rw [hdp]
        unfold deserialize_github_package
        rw [hsplit]
        dsimp only
        rw [hok]
        dsimp only
        rw [hsl]
      · intro ow repo hsl
        rw [hdp]
        unfold deserialize_github_package
        rw [hsplit]
        dsimp only
        rw [hok]
        dsimp only
        rw [hsl]

/-- Witness for C3: the documented example identifier. -/
theorem C3_github_decoding_witness :
    deserialize_package pfOk [] [Value.str "x@github:owner/repo#deadbeef".data, Value.obj [],
        Value.str "x".data] =
      some (Except.ok (Package.mk "github:owner-repo-deadbeef".data
        (Fetcher.FetchGitHub "owner".data "repo".data "deadbeef".data "h0".data))) := by
  have h := ((C3_github_decoding pfOk [] "x@github:owner/repo#deadbeef".data (Value.obj [])
      (Value.str "x".data) 1 "github:owner/repo#deadbeef".data "github:owner/repo".data
      "deadbeef".data (by decide) (by decide) (by decide)).2 (by decide)).2
      (Prefetch.mk "h0".data) (by decide)
  have h2 := h.2 "github:owner".data "repo".data (by decide)
  rw [h2]
  decide

/-- C4: decoding an arity-3 entry whose extracted identifier suffix after
the last `@` does not start with `github:` drops a leading `git+` prefix,
splits the remainder on the first `#` into (url, rev), failing with the
missing-git-ref error when `#` is absent; otherwise it consults the
prefetch collaborator at exactly `git+{url}?rev={rev}` and produces the
package named `git:{rev}` with a `FetchGit` fetcher whose hash is the
prefetch result (never a hash from the entry itself). -/
theorem C4_git_decoding (pf : Str → Except Str Prefetch) (nm ident : Str) (v1 v2 : Value)
    (p : Nat) (spec url rev : Str)
    (hp : rfindChar (escapeString ident) '@' = some p)
    (hspec : spec = (escapeString ident).drop (p + 1))
    (hng : "github:".data.isPrefixOf spec = false) :
    (split_once_owned (dropPrefixStr spec "git+".data) '#' = none →
      deserialize_package pf nm [Value.str ident, v1, v2] =
        some (Except.error Error.MissingGitRef)) ∧
    (split_once_owned (dropPrefixStr spec "git+".data) '#' = some (url, rev) →
      (∀ e, pf ("git+".data ++ url ++ "?rev=".data ++ rev) = Except.error e →
        deserialize_package pf nm [Value.str ident, v1, v2] =
          some (Except.error (Error.PrefetchFailed e))) ∧
      (∀ h : Prefetch, pf ("git+".data ++ url ++ "?rev=".data ++ rev) = Except.ok h →
        deserialize_package pf nm [Value.str ident, v1, v2] =
          some (Except.ok (Package.mk ("git:".data ++ rev)
            (Fetcher.FetchGit url rev h.hash))))) := by
  have hdp : deserialize_package pf nm [Value.str ident, v1, v2] =
      some (deserialize_git_package pf spec) := by
    rw [git_or_github_eval pf nm ident v1 v2, hp]
    dsimp only
    rw [← hspec, if_neg (by simp [hng])]
  refine ⟨?_, ?_⟩
  · intro hsplit
    rw [hdp]
    unfold deserialize_git_package
    dsimp only
    rw [hsplit]
  · intro hsplit
    refine ⟨?_, ?_⟩
    · intro e he
      rw [hdp]
      unfold deserialize_git_package
      dsimp only
      rw [hsplit]
      dsimp only
      rw [he]
    · intro h hok
      rw [hdp]
      unfold deserialize_git_package
      dsimp only
      rw [hsplit]
      dsimp only
      rw [hok]

/-- Witness for C4 at a concrete git identifier. -/
theorem C4_git_decoding_witness :
    deserialize_package pfOk [] [Value.str "y@git+https://example.com/r.git#abc".data,
        Value.obj [], Value.str "z".data] =
      some (Except.ok (Package.mk "git:abc".data
        (Fetcher.FetchGit "https://example.com/r.git".data "abc".data "h0".data))) := by
  have h := ((C4_git_decoding pfOk [] "y@git+https://example.com/r.git#abc".data (Value.obj [])
      (Value.str "z".data) 1 "git+https://example.com/r.git#abc".data
      "https://example.com/r.git".data "abc".data (by decide) (by decide) (by decide)).2
      (by decide)).2 (Prefetch.mk "h0".data) (by decide)
  exact h

/-- Evaluation of an arity-2 entry: extract the (JSON-escaped) identifier,
take the suffix after the last `@`, and dispatch on the `http` prefix. -/
theorem tarball_or_file_eval (pf : Str → Except Str Prefetch) (nm : Str) (s : Str) (v1 : Value) :
    deserialize_package pf nm [Value.str s, v1] =
      (match drain_after_substring (escapeString s) "@".data with
       | none => some (Except.error Error.NoAtInPackageIdentifier)
       | some path =>
         if "http".data.isPrefixOf path then some (deserialize_tarball_package pf path)
         else some (deserialize_file_package nm path)) := by
  rw [dp_len2 pf nm [Value.str s, v1] rfl]
  unfold deserialize_tarball_or_file_package
  rw [swap_str_head2]

/-- C5: decoding an arity-2 entry takes the suffix of the extracted
identifier strictly after its last `@` as the path, failing with the
no-`@` error when `@` is absent; a path starting with `http` is treated as
a remote tarball (prefetch is consulted on exactly the path, the package
is named `tarball:{url}` with a `FetchTarball` fetcher); otherwise the
suffix strictly after the last `file:` becomes a `CopyToStore` path under
the original entry name, failing with the missing-file-specifier error
when `file:` is absent. -/
theorem C5_tarball_or_file_decoding (pf : Str → Except Str Prefetch) (nm ident : Str)
    (v1 : Value) (path p2 : Str) :
    (drain_after_substring (escapeString ident) "@".data = none →
      deserialize_package pf nm [Value.str ident, v1] =
        some (Except.error Error.NoAtInPackageIdentifier)) ∧
    (drain_after_substring (escapeString ident) "@".data = some path →
      ("http".data.isPrefixOf path = true →
        (∀ e, pf path = Except.error e →
          deserialize_package pf nm [Value.str ident, v1] =
            some (Except.error (Error.PrefetchFailed e))) ∧
        (∀ h : Prefetch, pf path = Except.ok h →
          deserialize_package pf nm [Value.str ident, v1] =
            some (Except.ok (Package.mk ("tarball:".data ++ path)
              (Fetcher.FetchTarball path h.hash))))) ∧
      ("http".data.isPrefixOf path = false →
        (drain_after_substring path "file:".data = none →
          deserialize_package pf nm [Value.str ident, v1] =
            some (Except.error Error.MissingFileSpecifier)) ∧
        (drain_after_substring path "file:".data = some p2 →
          deserialize_package pf nm [Value.str ident, v1] =
            some (Except.ok (Package.mk nm (Fetcher.CopyToStore p2)))))) := by
  refine ⟨?_, ?_⟩
  · intro hdrain
    rw [tarball_or_file_eval pf nm ident v1, hdrain]
  · intro hdrain
    refine ⟨?_, ?_⟩
    · intro hhttp
      refine ⟨?_, ?_⟩
      · intro e he
        rw [tarball_or_file_eval pf nm ident v1, hdrain]
        dsimp only
        rw [if_pos hhttp]
        unfold deserialize_tarball_package
        rw [he]
      · intro h hok
        rw [tarball_or_file_eval pf nm ident v1, hdrain]
        dsimp only
        rw [if_pos hhttp]
        unfold deserialize_tarball_package
        rw [hok]
    · intro hhttp
      refine ⟨?_, ?_⟩
      · intro hfile
        rw [tarball_or_file_eval pf nm ident v1, hdrain]
        dsimp only
        rw [if_neg (by simp [hhttp])]
        unfold deserialize_file_package
        rw [hfile]
      · intro hfile
        rw [tarball_or_file_eval pf nm ident v1, hdrain]
        dsimp only
        rw [if_neg (by simp [hhttp])]
        unfold deserialize_file_package
        rw [hfile]

/-- Witness for C5: the documented file example and a tarball example. -/
theorem C5_tarball_or_file_decoding_witness :
    deserialize_package pfOk "pkg".data [Value.str "pkg@file:./local/path".data, Value.obj []] =
      some (Except.ok (Package.mk "pkg".data
        (Fetcher.CopyToStore "./local/path".data))) ∧
    deserialize_package pfOk "pkg".data
        [Value.str "t@https://example.com/a.tgz".data, Value.obj []] =
      some (Except.ok (Package.mk "tarball:https://example.com/a.tgz".data
        (Fetcher.FetchTarball "https://example.com/a.tgz".data "h0".data))) := by
  constructor
  · exact (((C5_tarball_or_file_decoding pfOk "pkg".data "pkg@file:./local/path".data
      (Value.obj []) "file:./local/path".data "./local/path".data).2 (by decide)).2
      (by decide)).2 (by decide)
  · have h := (((C5_tarball_or_file_decoding pfOk "pkg".data "t@https://example.com/a.tgz".data
      (Value.obj []) "https://example.com/a.tgz".data []).2 (by decide)).1 (by decide)).2
      (Prefetch.mk "h0".data) (by decide)
    rw [h]
    decide

/-- C6: `to_npm_url` returns a present non-empty explicit tarball URL
verbatim; when the explicit URL is absent or empty, an unscoped identifier
(no slash) is split on the first `@` into (name, version) — failing with
the no-`@` error if `@` is absent — and produces the default-registry
tarball URL for that name and version; a scoped identifier is split on the
first slash into (user, rest) and `rest` on the first `@` into
(name, version) — failing with the no-`@` error if `@` is absent — and
produces the default-registry tarball URL carrying the user segment. -/
theorem C6_npm_url_building (ident : Str) (turl : Option Str) (user rest nm ver : Str) :
    (∀ u, turl = some u → u ≠ [] → to_npm_url ident turl = Except.ok u) ∧
    ((turl = none ∨ turl = some []) →
      (split_once_sub ident "/".data = none →
        (split_once_sub ident "@".data = none →
          to_npm_url ident turl = Except.error Error.NoAtInPackageIdentifier) ∧
        (split_once_sub ident "@".data = some (nm, ver) →
          to_npm_url ident turl = Except.ok
            (DEFAULT_REGISTRY ++ nm ++ "/-/".data ++ nm ++ "-".data ++ ver ++ ".tgz".data))) ∧
      (split_once_sub ident "/".data = some (user, rest) →
        (split_once_sub rest "@".data = none →
          to_npm_url ident turl = Except.error Error.NoAtInPackageIdentifier) ∧
        (split_once_sub rest "@".data = some (nm, ver) →
          to_npm_url ident turl = Except.ok
            (DEFAULT_REGISTRY ++ user ++ "/".data ++ nm ++ "/-/".data ++ nm ++ "-".data
              ++ ver ++ ".tgz".data)))) := by
  refine ⟨?_, ?_⟩
  · intro u hu hne
    subst hu
    cases u with
    | nil => exact absurd rfl hne
    | cons c cs => rfl
  · intro hor
    have hd : to_npm_url ident turl = to_npm_url_default ident := by
      rcases hor with h | h <;> subst h <;> rfl
    refine ⟨?_, ?_⟩
    · intro hsl
      refine ⟨?_, ?_⟩
      · intro hsa
        rw [hd]
        unfold to_npm_url_default
        rw [hsl, hsa]
      · intro hsa
        rw [hd]
        unfold to_npm_url_default
        rw [hsl, hsa]
    · intro hsl
      refine ⟨?_, ?_⟩
      · intro hsa
        rw [hd]
        unfold to_npm_url_default
        rw [hsl]
        dsimp only
        rw [hsa]
      · intro hsa
        rw [hd]
        unfold to_npm_url_default
        rw [hsl]
        dsimp only
        rw [hsa]

/-- Witness for C6: the three documented examples. -/
theorem C6_npm_url_building_witness :
    to_npm_url "@alloc/quick-lru@5.2.0".data none =
      Except.ok "https://registry.npmjs.org/@alloc/quick-lru/-/quick-lru-5.2.0.tgz".data ∧
    to_npm_url "@alloc/quick-lru@5.2.0".data (some []) =
      Except.ok "https://registry.npmjs.org/@alloc/quick-lru/-/quick-lru-5.2.0.tgz".data ∧
    to_npm_url "@alloc/quick-lru@5.2.0".data
        (some "https://npm.pkg.github.com/x.tgz".data) =
      Except.ok "https://npm.pkg.github.com/x.tgz".data := by
  refine ⟨?_, ?_, ?_⟩
  · have h := (((C6_npm_url_building "@alloc/quick-lru@5.2.0".data none "@alloc".data
      "quick-lru@5.2.0".data "quick-lru".data "5.2.0".data).2 (Or.inl rfl)).2
      (by decide)).2 (by decide)
    rw [h]
    decide
  · have h := (((C6_npm_url_building "@alloc/quick-lru@5.2.0".data (some []) "@alloc".data
      "quick-lru@5.2.0".data "quick-lru".data "5.2.0".data).2 (Or.inr rfl)).2
      (by decide)).2 (by decide)
    rw [h]
    decide
  · exact (C6_npm_url_building "@alloc/quick-lru@5.2.0".data
      (some "https://npm.pkg.github.com/x.tgz".data) [] [] [] []).1
      "https://npm.pkg.github.com/x.tgz".data rfl (by decide)

/-- C7: a shape-valid arity-2 file entry on which the development-time
check of `deserialize_file_package` fires: the identifier suffix after the
last `@` does not start with `http` (so the entry is decoded as a file
package and decoding succeeds), yet the path handed to the file decoder
contains `http`, so the `debug_assert` condition `file_path_http_assert`
is violated (the assert fires). -/
theorem C7_file_http_assert_fires :
    drain_after_substring (escapeString "pkg@file:./http-assets".data) "@".data =
      some "file:./http-assets".data ∧
    "http".data.isPrefixOf "file:./http-assets".data = false ∧
    file_path_http_assert "file:./http-assets".data = true ∧
    deserialize_package pfZero "pkg".data
        [Value.str "pkg@file:./http-assets".data, Value.obj []] =
      some (Except.ok (Package.mk "pkg".data (Fetcher.CopyToStore "./http-assets".data))) := by
  refine ⟨by decide, by decide, by decide, by decide⟩

/-- C8 (amended): for every sequence of JSON values and every index `i`
holding a string value `s`, indexed-take returns the JSON-escaped form of
`s` (equal to `s` exactly when `s` contains no characters JSON escaping
rewrites), and the remaining sequence is the original with the element at
`i` overwritten by the last element and the last element dropped; every
element of the remaining sequence already occurs in the original sequence,
so the taken string reappears only when some element of the original
sequence carries it. -/
theorem C8_indexed_take_amended (values : List Value) (i : Nat) (s : Str)
    (hi : values.get? i = some (Value.str s)) :
    ∃ rest, swap_remove_value values i = some (escapeString s, rest) ∧
      (∀ last, values.getLast? = some last → rest = (values.set i last).dropLast) ∧
      ((∀ c ∈ s, char_needs_escape c = false) → escapeString s = s) ∧
      (∀ x, x ∈ rest → x ∈ values) := by
  have hne : values ≠ [] := by
    intro h
    subst h
    simp [List.get?] at hi
  cases hlast : values.getLast? with
  | none => exact absurd (List.getLast?_eq_none_iff.mp hlast) hne
  | some l =>
    refine ⟨(values.set i l).dropLast, ?_, ?_, escapeString_eq_self s, ?_⟩
    · unfold swap_remove_value swap_remove
      rw [hi, hlast]
      dsimp only
      rw [if_pos (vts_len2 s)]
      have hstrip : ((valueToString (Value.str s)).drop 1).dropLast = escapeString s := by
        show ((('"' :: (escapeString s ++ ['"'])).drop 1).dropLast) = escapeString s
        exact strip_quotes_escape (escapeString s)
      rw [hstrip]
    · intro last hlast2
      injection hlast2 with hlast2
      rw [hlast2]
    · intro x hx
      have hx2 : x ∈ values.set i l := List.mem_of_mem_dropLast hx
      rcases List.mem_or_eq_of_mem_set hx2 with hmem | heq
      · exact hmem
      · rw [heq]
        have : l ∈ values.getLast? := by
          rw [hlast]
          rfl
        rcases List.mem_getLast?_eq_getLast this with ⟨hne2, hl⟩
        rw [hl]
        exact List.getLast_mem hne2

/-- C8 counterexample to the claim as stated: taking index 0 of a
sequence of two string values returns a string that differs from the
original content of element 0 (escaping rewrote the quote character), and
the remaining sequence contains the taken string verbatim. -/
theorem C8_indexed_take_counterexample :
    swap_remove_value [Value.str "a\"".data, Value.str "a\\\"".data] 0 =
      some ("a\\\"".data, [Value.str "a\\\"".data]) ∧
    "a\\\"".data ≠ "a\"".data ∧
    Value.str "a\\\"".data ∈ [Value.str "a\\\"".data] := by
  refine ⟨rfl, by decide, List.Mem.head _⟩

/-- Witness for C8 at a concrete two-element sequence. -/
theorem C8_indexed_take_witness :
    swap_remove_value [Value.str "ab".data, Value.str "cd".data] 0 =
      some ("ab".data, [Value.str "cd".data]) := by
  obtain ⟨rest, h1, h2, h3, h4⟩ :=
    C8_indexed_take_amended [Value.str "ab".data, Value.str "cd".data] 0 "ab".data rfl
  have hr := h2 (Value.str "cd".data) rfl
  rw [h1, hr, h3 (by decide)]
  rfl

/-- C10: the entry name has no influence on the decoded package for npm
(arity 4), git or github (arity 3), and remote-tarball (arity 2 with an
`http`-prefixed path) shapes: decoding the same values under two different
entry names, with the same prefetch stand-in, produces identical results. -/
theorem C10_name_independence (pf : Str → Except Str Prefetch) (n1 n2 : Str)
    (values : List Value) :
    (values.length = 4 → deserialize_package pf n1 values = deserialize_package pf n2 values) ∧
    (values.length = 3 → deserialize_package pf n1 values = deserialize_package pf n2 values) ∧
    (values.length = 2 → ∀ s r path, swap_remove_value values 0 = some (s, r) →
      drain_after_substring s "@".data = some path →
      "http".data.isPrefixOf path = true →
      deserialize_package pf n1 values = deserialize_package pf n2 values) := by
  refine ⟨?_, ?_, ?_⟩
  · intro h
    rw [dp_len4 pf n1 values h, dp_len4 pf n2 values h]
    rfl
  · intro h
    rw [dp_len3 pf n1 values h, dp_len3 pf n2 values h]
    rfl
  · intro h s r path hswap hdrain hpref
    rw [dp_len2 pf n1 values h, dp_len2 pf n2 values h]
    unfold deserialize_tarball_or_file_package
    rw [hswap]
    dsimp only
    rw [hdrain]
    dsimp only
    rw [if_pos hpref]
    rw [if_pos hpref]

/-- Witness for C10 at a concrete tarball entry under two names. -/
theorem C10_name_independence_witness :
    deserialize_package pfOk "a".data
        [Value.str "pkg@https://example.com/a.tgz".data, Value.obj []] =
      deserialize_package pfOk "b".data
        [Value.str "pkg@https://example.com/a.tgz".data, Value.obj []] :=
  (C10_name_independence pfOk "a".data "b".data
      [Value.str "pkg@https://example.com/a.tgz".data, Value.obj []]).2.2 (by decide)
    "pkg@https://example.com/a.tgz".data [Value.obj []] "https://example.com/a.tgz".data
    rfl (by decide) (by decide)
